import Mathlib

/-!
Verification of the membership-to-intersection aggregation pipeline of
`UpSetPlot.py` (repository LEARNING-VISUALIZATION-).

The Python source is shallowly embedded:

* cell values (`Value`) model the heterogeneous Python cell types that can
  occur in a pandas column: integers, floats (restricted to values that are
  exactly representable, modelled as rationals — every float literal relevant
  here, such as `1.0` and `0.0`, is exact), strings, booleans and `None`;
* `pyEq` models Python `==` on those values (numeric types compare by value,
  with `True == 1` and `1.0 == 1`; strings compare to strings; `None` only to
  `None`);
* the cell normalizer of `prepare_boolean_matrix` (lines 63-69) is the
  function `normalize`;
* `load_dataset` (lines 34-50) and `main` (lines 102-148) are embedded as
  `Except`-valued functions, `sys.exit(msg)` (exit status 1, a message)
  becoming `Except.error msg`;
* `prepare_boolean_matrix` (lines 53-71) is embedded twice: as a pure value
  (`prepareBM`) and as a transformer on an explicit heap of data frames
  (`prepare_boolean_matrix`) in which `df[columns].copy()` is a fresh
  allocation and the column assignments are in-place stores, so that the
  absence of mutation of the argument frame is a real statement;
* the membership-list derivation of `plot_upset` (lines 76-79) is
  `membership`; the grouping, counting and sorting that the script delegates
  to the external `upsetplot` library (`from_memberships` / `UpSet`, lines
  76-83) are not part of this repository, so `aggregate` models them from the
  specification: group rows by membership pattern, count, and sort by
  descending count with the tie-break "smaller pattern first, then
  lexicographic order of the constituent set names".
-/

namespace UpSetPlot

/-- Heterogeneous Python cell values. Floats are modelled by their exact
rational value (floats appearing in the claims, such as `1.0`, are exactly
representable). -/
inductive Value where
  | intV : Int → Value
  | floatV : Rat → Value
  | strV : String → Value
  | boolV : Bool → Value
  | noneV : Value
deriving DecidableEq, Repr

/-- Numeric view of a value: Python compares `int`, `float` and `bool`
numerically (`True == 1`, `1.0 == 1`). -/
def Value.toNum : Value → Option Rat
  | .intV n => some (n : Rat)
  | .floatV q => some q
  | .boolV b => some (if b then 1 else 0)
  | _ => none

/-- Python equality (`==`) on cell values: numeric values compare by
numeric value, strings by string equality, `None` equals only `None`, and
values of unrelated kinds are unequal. -/
def pyEq (a b : Value) : Bool :=
  match a.toNum, b.toNum with
  | some x, some y => x = y
  | _, _ =>
    match a, b with
    | .strV s, .strV t => s = t
    | .noneV, .noneV => true
    | _, _ => false

/-- The `true_values` set of `prepare_boolean_matrix` (line 63):
`{1, "1", "yes", "YES", "Yes", True}`. -/
def true_values : List Value :=
  [.intV 1, .strV "1", .strV "yes", .strV "YES", .strV "Yes", .boolV true]

/-- Cell normalizer of `prepare_boolean_matrix` (lines 67-69): the lambda
`True if x in true_values else False`, where Python set membership tests
`==` against the elements. -/
def normalize (x : Value) : Bool :=
  true_values.any (fun t => pyEq x t)

/-- C2: Normalization correctness. The normalizer maps integer 1, string
"1", strings "yes"/"YES"/"Yes" and boolean true to true, and integer 0,
string "0", strings "no"/"maybe" and None to false. -/
theorem normalize_correct :
    normalize (.intV 1) = true ∧ normalize (.strV "1") = true ∧
    normalize (.strV "yes") = true ∧ normalize (.strV "YES") = true ∧
    normalize (.strV "Yes") = true ∧ normalize (.boolV true) = true ∧
    normalize (.intV 0) = false ∧ normalize (.strV "0") = false ∧
    normalize (.strV "no") = false ∧ normalize (.strV "maybe") = false ∧
    normalize .noneV = false := by
  refine ⟨?_, ?_, ?_, ?_, ?_, ?_, ?_, ?_, ?_, ?_, ?_⟩ <;> decide

/-- C5: Normalization totality. `normalize` is a total Boolean-valued
function, and its true preimage is exactly the seven values equal (in the
Python sense) to a recognized true literal; every other value — in
particular the empty string, `None`, and integers or floats other than one —
normalizes to false. -/
theorem normalize_true_iff (v : Value) :
    normalize v = true ↔
      v = .intV 1 ∨ v = .floatV 1 ∨ v = .boolV true ∨
      v = .strV "1" ∨ v = .strV "yes" ∨ v = .strV "YES" ∨ v = .strV "Yes" := by
  cases v with
  | intV n =>
    simp only [normalize, true_values, List.any_cons, List.any_nil,
      Bool.or_eq_true, pyEq, Value.toNum]
    constructor
    · rintro (h | h | h | h | h | h | h) <;> simp_all
    · rintro (h | h | h | h | h | h | h) <;> simp_all
  | floatV q =>
    simp only [normalize, true_values, List.any_cons, List.any_nil,
      Bool.or_eq_true, pyEq, Value.toNum]
    constructor
    · rintro (h | h | h | h | h | h | h) <;> simp_all
    · rintro (h | h | h | h | h | h | h) <;> simp_all
  | strV s =>
    simp only [normalize, true_values, List.any_cons, List.any_nil,
      Bool.or_eq_true, pyEq, Value.toNum]
    constructor
    · rintro (h | h | h | h | h | h | h) <;> simp_all
    · rintro (h | h | h | h | h | h | h) <;> simp_all
  | boolV b =>
    cases b <;> simp [normalize, true_values, pyEq, Value.toNum]
  | noneV =>
    simp [normalize, true_values, pyEq, Value.toNum]

/-- C9: Python value equality makes the normalizer accept the float `1.0`
(numerically equal to the integer literal 1) even though it is not among the
enumerated true literals. -/
theorem normalize_float_one : normalize (.floatV 1) = true := by decide

/-- Model of a pandas data frame: named columns and the rows of cells. -/
structure DF where
  cols : List String
  rows : List (List Value)
deriving DecidableEq, Repr

/-- Python truthiness of a cell (`bool(x)`), the test applied by
`if row[col]` in the membership comprehension of `plot_upset` (line 78). -/
def truthy : Value → Bool
  | .boolV b => b
  | .intV n => n != 0
  | .floatV q => q != 0
  | .strV s => s != ""
  | .noneV => false

/-- Label lookup `row[col]`: the value of the first column named `c` in a
row (`None` when absent; callers only use present columns). -/
def rowVal (m : DF) (r : List Value) (c : String) : Value :=
  ((m.cols.zip r).lookup c).getD .noneV

/-- Membership list of one row, from `plot_upset` line 78:
`[col for col in boolean_df.columns if row[col]]`. -/
def membership (m : DF) (r : List Value) : List String :=
  m.cols.filter (fun c => truthy (rowVal m r c))

/-- Membership patterns of all rows of the matrix (line 77, `axis=1`). -/
def memberships (m : DF) : List (List String) :=
  m.rows.map (membership m)

/-- Lexicographic comparison of name lists, using the order on strings. -/
def lexLe : List String → List String → Bool
  | [], _ => true
  | _ :: _, [] => false
  | a :: as, b :: bs => if a < b then true else if a = b then lexLe as bs else false

/-- Comparator on intersection records. Modelled from the spec: larger
count first; on equal counts, smaller pattern first, then lexicographic
order of the constituent set names. -/
def recLE (a b : List String × Nat) : Bool :=
  if b.2 < a.2 then true
  else if a.2 = b.2 then
    if a.1.length < b.1.length then true
    else if a.1.length = b.1.length then lexLe a.1 b.1
    else false
  else false

/-- Record order as a relation, for sorting. -/
def recOrd (a b : List String × Nat) : Prop := recLE a b = true

instance : DecidableRel recOrd := fun a b => by unfold recOrd; infer_instance

/-- Intersection aggregation. Modelled from the spec: the script hands the
membership lists to the external upsetplot library (`from_memberships` and
`UpSet` with `sort_by` cardinality, lines 76-83), which is not part of this
repository; per the specification the aggregator groups rows by membership
pattern, counts each distinct observed pattern, and sorts the records by
descending count with the size-then-lexicographic tie-break. -/
def aggregate (m : DF) : List (List String × Nat) :=
  List.insertionSort recOrd ((memberships m).dedup.map
    (fun p => (p, (memberships m).countP (fun q => decide (q = p)))))

theorem lexLe_total (p q : List String) : lexLe p q = true ∨ lexLe q p = true := by
  induction p generalizing q with
  | nil => left; rfl
  | cons a as ih =>
    cases q with
    | nil => right; rfl
    | cons b bs =>
      rcases lt_trichotomy a b with h | h | h
      · left; simp [lexLe, h]
      · subst h
        rcases ih bs with h2 | h2
        · left; simp [lexLe, h2]
        · right; simp [lexLe, h2]
      · right; simp [lexLe, h]

theorem lexLe_trans {p q r : List String} (h1 : lexLe p q = true)
    (h2 : lexLe q r = true) : lexLe p r = true := by
  induction p generalizing q r with
  | nil => rfl
  | cons a as ih =>
    cases q with
    | nil => simp [lexLe] at h1
    | cons b bs =>
      cases r with
      | nil => simp [lexLe] at h2
      | cons c cs =>
        by_cases hab : a < b
        · by_cases hbc : b < c
          · simp [lexLe, hab.trans hbc]
          · by_cases hbc2 : b = c
            · subst hbc2; simp [lexLe, hab]
            · simp [lexLe, hbc, hbc2] at h2
        · by_cases hab2 : a = b
          · subst hab2
            simp only [lexLe, if_neg hab, if_pos rfl] at h1
            by_cases hbc : a < c
            · simp [lexLe, hbc]
            · by_cases hbc2 : a = c
              · subst hbc2
                simp only [lexLe, if_neg hbc, if_pos rfl] at h2 ⊢
                exact ih h1 h2
              · simp [lexLe, hbc, hbc2] at h2
          · simp [lexLe, hab, hab2] at h1

/-- Unfolding characterization of the record comparator. -/
theorem recLE_iff (a b : List String × Nat) :
    recLE a b = true ↔
      b.2 < a.2 ∨ (a.2 = b.2 ∧ (a.1.length < b.1.length ∨
        (a.1.length = b.1.length ∧ lexLe a.1 b.1 = true))) := by
  unfold recLE
  split_ifs with h1 h2 h3 h4 <;> simp_all

instance : IsTotal (List String × Nat) recOrd where
  total := by
    intro a b
    unfold recOrd
    rw [recLE_iff, recLE_iff]
    rcases lt_trichotomy a.2 b.2 with h | h | h
    · exact Or.inr (Or.inl h)
    · rcases lt_trichotomy a.1.length b.1.length with hl | hl | hl
      · exact Or.inl (Or.inr ⟨h, Or.inl hl⟩)
      · rcases lexLe_total a.1 b.1 with hx | hx
        · exact Or.inl (Or.inr ⟨h, Or.inr ⟨hl, hx⟩⟩)
        · exact Or.inr (Or.inr ⟨h.symm, Or.inr ⟨hl.symm, hx⟩⟩)
      · exact Or.inr (Or.inr ⟨h.symm, Or.inl hl⟩)
    · exact Or.inl (Or.inl h)

instance : IsTrans (List String × Nat) recOrd where
  trans := by
    intro a b c h1 h2
    unfold recOrd at h1 h2 ⊢
    rw [recLE_iff] at h1 h2 ⊢
    rcases h1 with h1 | ⟨e1, h1⟩
    · rcases h2 with h2 | ⟨e2, h2⟩
      · exact Or.inl (h2.trans h1)
      · exact Or.inl (by omega)
    · rcases h2 with h2 | ⟨e2, h2⟩
      · exact Or.inl (by omega)
      · refine Or.inr ⟨by omega, ?_⟩
        rcases h1 with hl1 | ⟨el1, hx1⟩
        · rcases h2 with hl2 | ⟨el2, hx2⟩
          · exact Or.inl (hl1.trans hl2)
          · exact Or.inl (by omega)
        · rcases h2 with hl2 | ⟨el2, hx2⟩
          · exact Or.inl (by omega)
          · exact Or.inr ⟨by omega, lexLe_trans hx1 hx2⟩

/-- C1: Count conservation. The counts of the intersection records produced
by the aggregation sum to the number of rows of the boolean matrix. -/
theorem aggregate_count_conservation (m : DF) :
    ((aggregate m).map Prod.snd).sum = m.rows.length := by
  unfold aggregate
  set ms := memberships m with hms
  have hperm := List.perm_insertionSort recOrd
    (ms.dedup.map (fun p => (p, ms.countP (fun q => decide (q = p)))))
  rw [(hperm.map Prod.snd).sum_eq, List.map_map]
  have hlen : ms.length = m.rows.length := by
    rw [hms]; exact List.length_map m.rows (membership m)
  rw [← hlen]
  exact List.sum_map_count_dedup_eq_length ms

/-- C4: Pattern uniqueness. No two intersection records of the aggregation
share the same membership pattern, comparing patterns as sets of set names
(equal membership), not as sequences. -/
theorem aggregate_pattern_unique (m : DF) :
    (aggregate m).Pairwise (fun a b => ¬ ∀ x, x ∈ a.1 ↔ x ∈ b.1) := by
  unfold aggregate
  set ms := memberships m with hms
  set recs := ms.dedup.map (fun p => (p, ms.countP (fun q => decide (q = p)))) with hrecs
  have hperm := List.perm_insertionSort recOrd recs
  rw [List.Perm.pairwise_iff (fun h hc => h (fun x => (hc x).symm)) hperm,
    hrecs, List.pairwise_map]
  have hfil : ∀ p ∈ ms.dedup, ∃ g, p = m.cols.filter g := by
    intro p hp
    rcases List.mem_map.mp (List.mem_dedup.mp hp) with ⟨r, hr, rfl⟩
    exact ⟨_, rfl⟩
  have hnd : ms.dedup.Pairwise (fun p q => p ≠ q) := List.nodup_dedup ms
  refine hnd.imp_of_mem ?_
  intro p q hp hq hne hiff
  rcases hfil p hp with ⟨f, rfl⟩
  rcases hfil q hq with ⟨g, rfl⟩
  refine hne (List.filter_congr ?_)
  intro x hx
  have hx2 := hiff x
  simp only [List.mem_filter, hx, true_and] at hx2
  cases hfx : f x <;> cases hgx : g x <;> simp_all

/-- C3: Sort order. Adjacent records of the aggregation output are in
strictly descending count order, ties broken by smaller pattern size first
and then by lexicographic order of the constituent set names. -/
theorem aggregate_sort_order (m : DF) :
    (aggregate m).Chain' (fun a b => b.2 < a.2 ∨ (a.2 = b.2 ∧
      (a.1.length < b.1.length ∨
        (a.1.length = b.1.length ∧ a.1 ≠ b.1 ∧ lexLe a.1 b.1 = true)))) := by
  unfold aggregate
  set ms := memberships m with hms
  set recs := ms.dedup.map (fun p => (p, ms.countP (fun q => decide (q = p)))) with hrecs
  have hsorted := List.sorted_insertionSort recOrd recs
  have hperm := List.perm_insertionSort recOrd recs
  have hne : recs.Pairwise (fun a b => a.1 ≠ b.1) := by
    rw [hrecs, List.pairwise_map]
    exact List.nodup_dedup ms
  have hne2 : (List.insertionSort recOrd recs).Pairwise (fun a b => a.1 ≠ b.1) :=
    (List.Perm.pairwise_iff (fun h => h.symm) hperm).mpr hne
  refine List.Pairwise.chain' ((hsorted.and hne2).imp ?_)
  rintro a b ⟨hord, hab⟩
  unfold recOrd at hord
  rw [recLE_iff] at hord
  rcases hord with h | ⟨he, h⟩
  · exact Or.inl h
  · refine Or.inr ⟨he, ?_⟩
    rcases h with h | ⟨hl, hx⟩
    · exact Or.inl h
    · exact Or.inr ⟨hl, hab, hx⟩

/-- Column selection `df[columns]`: a data frame holding the designated
columns, each row restricted to them (label lookup). -/
def dfSelect (df : DF) (columns : List String) : DF :=
  ⟨columns, df.rows.map (fun r => columns.map (fun c => rowVal df r c))⟩

/-- Column assignment `matrix[col] = matrix[col].apply(f)` (lines 67-69):
the value of the frame after replacing every cell of column `c` by `f` of
its old value. -/
def applyCol (df : DF) (c : String) (f : Value → Value) : DF :=
  ⟨df.cols,
    df.rows.map (fun r => (df.cols.zip r).map
      (fun p => if p.1 = c then f p.2 else p.2))⟩

/-- Embedding of `prepare_boolean_matrix` (lines 53-71) over an explicit
heap of data frames (references are positions). `df[columns].copy()` (line
60) allocates a fresh frame at the next free reference, and each iteration
of the normalization loop (lines 66-69) stores the updated frame back at
that same reference, exactly as the Python assignments mutate only the new
`matrix` object. The pair returned is the final heap and the reference of
the new boolean matrix. -/
def prepare_boolean_matrix (h : List DF) (dfRef : Nat) (columns : List String) :
    List DF × Nat :=
  let df := h.getD dfRef ⟨[], []⟩
  let mref := h.length
  let h1 := h ++ [dfSelect df columns]
  let h2 := columns.foldl
    (fun hh c => hh.set mref
      (applyCol (hh.getD mref ⟨[], []⟩) c (fun v => .boolV (normalize v)))) h1
  (h2, mref)

theorem foldl_set_preserve (mref : Nat) (g : List DF → String → DF)
    (cs : List String) (hh : List DF) (i : Nat) (hne : i ≠ mref) :
    (cs.foldl (fun acc c => acc.set mref (g acc c)) hh)[i]? = hh[i]? := by
  induction cs generalizing hh with
  | nil => rfl
  | cons c cs ih =>
    rw [List.foldl_cons, ih (hh.set mref (g hh c)),
      List.getElem?_set_ne hne.symm]

/-- C7: No mutation of the input. Running `prepare_boolean_matrix` on a
heap leaves every pre-existing frame (in particular the argument data
frame) unchanged, and the boolean matrix it returns lives at a fresh
reference distinct from every pre-existing one. -/
theorem prepare_boolean_matrix_no_mutation (h : List DF) (dfRef : Nat)
    (columns : List String) (i : Nat) (hi : i < h.length) :
    (prepare_boolean_matrix h dfRef columns).1[i]? = h[i]? ∧
      (prepare_boolean_matrix h dfRef columns).2 ≠ i := by
  have h2ref : (prepare_boolean_matrix h dfRef columns).2 = h.length := rfl
  refine ⟨?_, by omega⟩
  have h1eq : (prepare_boolean_matrix h dfRef columns).1 =
      columns.foldl (fun hh c => hh.set h.length
        (applyCol (hh.getD h.length ⟨[], []⟩) c (fun v => .boolV (normalize v))))
        (h ++ [dfSelect (h.getD dfRef ⟨[], []⟩) columns]) := rfl
  rw [h1eq, foldl_set_preserve h.length _ columns _ i (by omega),
    List.getElem?_append_left hi]

/-- C7 witness: on a one-frame heap the frame at reference 0 survives the
preparation of a boolean matrix from it. -/
theorem prepare_boolean_matrix_no_mutation_witness :
    (prepare_boolean_matrix [⟨["A"], [[.intV 1]]⟩] 0 ["A"]).1[0]? =
        ([⟨["A"], [[.intV 1]]⟩] : List DF)[0]? ∧
      (prepare_boolean_matrix [⟨["A"], [[.intV 1]]⟩] 0 ["A"]).2 ≠ 0 :=
  prepare_boolean_matrix_no_mutation [⟨["A"], [[.intV 1]]⟩] 0 ["A"] 0 (by decide)

/-- Parse modes of `load_dataset`: comma-separated text, tab-separated
text, or spreadsheet. The parsers themselves are pandas library code and
are abstracted as a function parameter. -/
inductive ParseMode where
  | csv
  | tab
  | excel
deriving DecidableEq, Repr

/-- Extension extraction, modelling `os.path.splitext(path)[1]`: the suffix
of the final path component starting at its last dot, where a leading run
of dots never starts an extension. -/
def extOf (p : String) : String :=
  let base := (p.toList.reverse.takeWhile (fun c => c != '/')).reverse
  let rest := base.drop ((base.takeWhile (fun c => c == '.')).length)
  if rest.contains '.' then
    String.mk ('.' :: (rest.reverse.takeWhile (fun c => c != '.')).reverse)
  else ""

/-- Lower-casing, modelling the Python `str.lower()` call of line 39: every
character mapped to its lower-case form. -/
def strLower (s : String) : String :=
  String.mk (s.toList.map Char.toLower)

/-- Extension dispatch of `load_dataset` (lines 41-48): `.csv` is parsed as
comma-separated, `.tsv` and `.txt` as tab-separated, `.xls` and `.xlsx` as
spreadsheets, anything else is unsupported. -/
def modeFor (ext : String) : Option ParseMode :=
  if ext ∈ [".csv"] then some .csv
  else if ext ∈ [".tsv", ".txt"] then some .tab
  else if ext ∈ [".xls", ".xlsx"] then some .excel
  else none

/-- Embedding of `load_dataset` (lines 34-50). The file system is a partial
map from paths to raw contents (`os.path.exists` is definedness) and
`parse` abstracts the pandas readers; `sys.exit(msg)` becomes
`Except.error msg`. -/
def load_dataset (parse : ParseMode → String → DF) (fs : String → Option String)
    (path : String) : Except String DF :=
  match fs path with
  | none => .error ("Error: File not found → " ++ path)
  | some content =>
    match modeFor (strLower (extOf path)) with
    | some m => .ok (parse m content)
    | none => .error "Unsupported file format. Use CSV/TSV/Excel."

/-- The demo dataset of `create_example_demo` (lines 92-99), rows of the
four columns Gene and Condition A, B, C. -/
def create_example_demo : DF :=
  ⟨["Gene", "Condition_A", "Condition_B", "Condition_C"],
   [[.strV "G1", .intV 1, .intV 0, .intV 1],
    [.strV "G2", .intV 1, .intV 1, .intV 0],
    [.strV "G3", .intV 0, .intV 1, .intV 1],
    [.strV "G4", .intV 1, .intV 1, .intV 1],
    [.strV "G5", .intV 0, .intV 0, .intV 1],
    [.strV "G6", .intV 1, .intV 0, .intV 0]]⟩

/-- Parsed command-line arguments (lines 107-124). `columns` is `none` when
the flag is absent; Python `if not args.columns` also treats an empty list
as absent. -/
structure Args where
  file : Option String
  columns : Option (List String)
  output : String
  demo : Bool

/-- Embedding of `main` (lines 102-148) up to the records handed to the
renderer: demo-mode selection, otherwise file loading, column checking
(halting at the first requested column absent from the table, lines
143-145), then the boolean-matrix preparation and the aggregation. The
matplotlib rendering and the image file write are external effects and are
not modelled; each `sys.exit(msg)` is `Except.error msg`. -/
def mainModel (parse : ParseMode → String → DF) (fs : String → Option String)
    (args : Args) : Except String (List (List String × Nat)) :=
  let r : Except String (DF × List String) :=
    if args.demo then
      .ok (create_example_demo, ["Condition_A", "Condition_B", "Condition_C"])
    else
      match args.file with
      | none => .error "Use --file or enable --demo mode."
      | some f =>
        match load_dataset parse fs f with
        | .error e => .error e
        | .ok df =>
          match args.columns with
          | none => .error "Specify column names using --columns."
          | some cols =>
            if cols.isEmpty then .error "Specify column names using --columns."
            else
              match cols.find? (fun c => !(decide (c ∈ df.cols))) with
              | some c => .error ("Error: Column not found → " ++ c)
              | none => .ok (df, cols)
  match r with
  | .error e => .error e
  | .ok (df, cols) =>
    let prepared := prepare_boolean_matrix [df] 0 cols
    .ok (aggregate (prepared.1.getD prepared.2 ⟨[], []⟩))

/-- C6: Empty set-name list. In non-demo mode an absent or empty column
list makes `main` halt with an error before any boolean matrix is built or
any aggregation runs: the run produces no records, never a silent empty
result. -/
theorem main_empty_columns_error (parse : ParseMode → String → DF)
    (fs : String → Option String) (args : Args) (hdemo : args.demo = false)
    (hcols : args.columns = none ∨ args.columns = some []) :
    ∃ e, mainModel parse fs args = .error e := by
  cases hf : args.file with
  | none => exact ⟨"Use --file or enable --demo mode.", by simp [mainModel, hdemo, hf]⟩
  | some f =>
    cases hload : load_dataset parse fs f with
    | error e => exact ⟨e, by simp [mainModel, hdemo, hf, hload]⟩
    | ok df =>
      rcases hcols with hc | hc
      · exact ⟨"Specify column names using --columns.",
          by simp [mainModel, hdemo, hf, hload, hc]⟩
      · exact ⟨"Specify column names using --columns.",
          by simp [mainModel, hdemo, hf, hload, hc]⟩

/-- C6 witness: a concrete non-demo invocation with an empty column list
errors out. -/
theorem main_empty_columns_error_witness :
    ∃ e, mainModel (fun _ _ => ⟨[], []⟩)
      (fun p => if p = "d.csv" then some "x" else none)
      ⟨some "d.csv", some [], "upset_plot.png", false⟩ = .error e :=
  main_empty_columns_error (fun _ _ => ⟨[], []⟩)
    (fun p => if p = "d.csv" then some "x" else none)
    ⟨some "d.csv", some [], "upset_plot.png", false⟩ rfl (Or.inr rfl)

/-- Spec-side enumeration of the fatal non-demo error cases of C8: input
file missing (flag absent or path not on the file system), unsupported file
extension, `--columns` not given (flag absent or empty), or a requested
column absent from the loaded table. Written from the claim, for comparison
with the behaviour of `mainModel`. -/
def specErrorCase (parse : ParseMode → String → DF) (fs : String → Option String)
    (args : Args) : Prop :=
  args.file = none ∨
  (∃ f, args.file = some f ∧ fs f = none) ∨
  (∃ f c, args.file = some f ∧ fs f = some c ∧ modeFor (strLower (extOf f)) = none) ∨
  args.columns = none ∨ args.columns = some [] ∨
  (∃ f content m cols, args.file = some f ∧ fs f = some content ∧
    modeFor (strLower (extOf f)) = some m ∧ args.columns = some cols ∧
    ∃ c ∈ cols, c ∉ (parse m content).cols)

/-- C8: Exit behavior. In non-demo mode, `main` terminates with an error
(non-zero exit, descriptive message) exactly in the enumerated cases —
missing input file, unsupported extension, missing `--columns`, requested
column absent — and the schema error message names the first missing
column. -/
theorem main_error_characterization (parse : ParseMode → String → DF)
    (fs : String → Option String) (args : Args) (hdemo : args.demo = false) :
    ((∃ e, mainModel parse fs args = .error e) ↔ specErrorCase parse fs args) ∧
    (∀ f content m cols c, args.file = some f → fs f = some content →
      modeFor (strLower (extOf f)) = some m → args.columns = some cols →
      cols.find? (fun x => !(decide (x ∈ (parse m content).cols))) = some c →
      mainModel parse fs args = .error ("Error: Column not found → " ++ c)) := by
  constructor
  · cases hf : args.file with
    | none => simp [mainModel, hdemo, hf, specErrorCase]
    | some f =>
      cases hfs : fs f with
      | none => simp [mainModel, load_dataset, hdemo, hf, hfs, specErrorCase]
      | some content =>
        cases hm : modeFor (strLower (extOf f)) with
        | none => simp [mainModel, load_dataset, hdemo, hf, hfs, hm, specErrorCase]
        | some m =>
          cases hc : args.columns with
          | none => simp [mainModel, load_dataset, hdemo, hf, hfs, hm, hc, specErrorCase]
          | some cols =>
            cases cols with
            | nil => simp [mainModel, load_dataset, hdemo, hf, hfs, hm, hc, specErrorCase]
            | cons c0 cs =>
              cases hfind : (c0 :: cs).find?
                  (fun x => !(decide (x ∈ (parse m content).cols))) with
              | some c =>
                have hpc := List.find?_some hfind
                have hmem := List.mem_of_find?_eq_some hfind
                simp only [Bool.not_eq_eq_eq_not, Bool.not_true,
                  decide_eq_false_iff_not] at hpc
                simp [mainModel, load_dataset, hdemo, hf, hfs, hm, hc, hfind,
                  specErrorCase]
                rcases List.mem_cons.mp hmem with rfl | hmem2
                · exact Or.inl hpc
                · exact Or.inr ⟨c, hmem2, hpc⟩
              | none =>
                have hall : ∀ x ∈ c0 :: cs, x ∈ (parse m content).cols := by
                  intro x hx
                  have := List.find?_eq_none.mp hfind x hx
                  simpa using this
                simp [mainModel, load_dataset, hdemo, hf, hfs, hm, hc, hfind,
                  specErrorCase]
                exact ⟨hall c0 (List.mem_cons_self c0 cs),
                  fun x hx => hall x (List.mem_cons_of_mem c0 hx)⟩
  · intro f content m cols c hf hfs hm hc hfind
    cases cols with
    | nil => simp at hfind
    | cons c0 cs =>
      simp [mainModel, load_dataset, hdemo, hf, hfs, hm, hc, hfind]

/-- C8 witness: a concrete non-demo invocation (existing file, unsupported
extension `.xyz`) on which the error characterization is instantiated. -/
theorem main_error_characterization_witness :
    (∃ e, mainModel (fun _ _ => (⟨["A"], []⟩ : DF))
        (fun p => if p = "d.xyz" then some "x" else none)
        ⟨some "d.xyz", some ["A"], "upset_plot.png", false⟩ = .error e) ↔
      specErrorCase (fun _ _ => (⟨["A"], []⟩ : DF))
        (fun p => if p = "d.xyz" then some "x" else none)
        ⟨some "d.xyz", some ["A"], "upset_plot.png", false⟩ :=
  (main_error_characterization (fun _ _ => (⟨["A"], []⟩ : DF))
    (fun p => if p = "d.xyz" then some "x" else none)
    ⟨some "d.xyz", some ["A"], "upset_plot.png", false⟩ rfl).1

/-- C10: The loader accepts the `.txt` extension: an existing file whose
lowercased extension is `.txt` is parsed tab-delimited, and the extension
dispatch sends `.txt` to the same parser as `.tsv`, instead of rejecting it
as unsupported. -/
theorem load_dataset_txt_tab (parse : ParseMode → String → DF)
    (fs : String → Option String) (path content : String)
    (hext : strLower (extOf path) = ".txt") (hfs : fs path = some content) :
    load_dataset parse fs path = .ok (parse .tab content) ∧
      modeFor ".txt" = some .tab ∧ modeFor ".txt" = modeFor ".tsv" := by
  refine ⟨?_, rfl, rfl⟩
  simp [load_dataset, hfs, hext, modeFor]

/-- C10 witness: loading the concrete path `data.txt` hands its contents to
the tab-separated parser. -/
theorem load_dataset_txt_tab_witness :
    load_dataset (fun _ _ => (⟨[], []⟩ : DF))
        (fun p => if p = "data.txt" then some "a\tb" else none) "data.txt" =
        .ok ((fun _ _ => (⟨[], []⟩ : DF)) ParseMode.tab "a\tb") ∧
      modeFor ".txt" = some .tab ∧ modeFor ".txt" = modeFor ".tsv" :=
  load_dataset_txt_tab (fun _ _ => (⟨[], []⟩ : DF))
    (fun p => if p = "data.txt" then some "a\tb" else none) "data.txt" "a\tb"
    (by decide) (by simp)

end UpSetPlot
